import Mathlib

/-!
Shallow embedding of the data-shaping pipeline of `src/rnn/model.py`
(supervised-oie): the `Sample`/`Pad_sample` token wrappers, the
`pad_sequences` padding/truncation routine, the sentence-group splitting
`get_sents_from_df`, the input/output encoders of `RNN_model`, and the
label-vocabulary handling (`LabelEncoder.fit` / `transform` /
`inverse_transform` as used by `load_dataset` and `decode_label`).

Fallible operations (Python code that raises, e.g. `max` over an empty
collection) are embedded as `Option`-valued functions returning `none`
on the raising inputs.
-/

namespace SupervisedOIE

/-- `class Sample`: a single sample wrapping one token index (`self.word`). -/
structure Sample where
  word : Int
deriving DecidableEq

/-- `Sample.encode`: returns the wrapped word index unchanged. -/
def Sample.encode (s : Sample) : Int := s.word

/-- `class Pad_sample(Sample)`: a dummy sample used for padding,
constructed with `word = 0`. -/
def Pad_sample : Sample := ⟨0⟩

/-- `max(map(len, sequences))` of Python, for a nonempty list (the `0`
of the empty branch is never used by `pad_sequences`, which fails first). -/
def max_observed (sequences : List (List α)) : Nat :=
  match sequences.map List.length with
  | [] => 0
  | n :: ns => ns.foldl Nat.max n

/-- The `maxlen` value `pad_sequences` actually pads/truncates to:
the maximum observed length when no `maxlen` is given, otherwise
`min(max_value, maxlen)`. -/
def effective_len (sequences : List (List α)) (maxlen : Option Nat) : Nat :=
  match maxlen with
  | none => max_observed sequences
  | some m => min (max_observed sequences) m

/-- One iteration of the `for sequence in sequences` loop of
`pad_sequences`: `list(sequence[:maxlen])` extended by
`[pad_func()] * (maxlen - len(sequence))`. -/
def pad_row (len : Nat) (pad : α) (s : List α) : List α :=
  s.take len ++ List.replicate (len - s.length) pad

/-- `pad_sequences(sequences, pad_func, maxlen)` of `model.py`.
`max(map(len, []))` raises `ValueError` in Python, embedded as `none`. -/
def pad_sequences (sequences : List (List α)) (pad_func : Unit → α)
    (maxlen : Option Nat) : Option (List (List α)) :=
  if sequences.isEmpty then none
  else some (sequences.map (pad_row (effective_len sequences maxlen) (pad_func ())))

/-! ### Basic facts about `pad_sequences` -/

theorem pad_row_length (len : Nat) (pad : α) (s : List α) :
    (pad_row len pad s).length = len := by
  simp only [pad_row, List.length_append, List.length_take, List.length_replicate]
  omega

theorem pad_sequences_eq_some (sequences : List (List α)) (pad_func : Unit → α)
    (maxlen : Option Nat) (h : sequences ≠ []) :
    pad_sequences sequences pad_func maxlen =
      some (sequences.map (pad_row (effective_len sequences maxlen) (pad_func ()))) := by
  simp [pad_sequences, h]

/-- C1: every output row of `pad_sequences` has length
`min L (max observed)` when `maxlen = some L`, and length
`max observed` when `maxlen = none`. -/
theorem pad_sequences_output_length (sequences : List (List α))
    (pad_func : Unit → α) (h : sequences ≠ []) :
    (∀ L out, pad_sequences sequences pad_func (some L) = some out →
        ∀ s ∈ out, s.length = min L (max_observed sequences)) ∧
    (∀ out, pad_sequences sequences pad_func none = some out →
        ∀ s ∈ out, s.length = max_observed sequences) := by
  constructor
  · intro L out hout s hs
    rw [pad_sequences_eq_some sequences pad_func (some L) h] at hout
    obtain rfl := Option.some_injective _ hout
    obtain ⟨t, _, rfl⟩ := List.mem_map.1 hs
    rw [pad_row_length, effective_len, Nat.min_comm]
  · intro out hout s hs
    rw [pad_sequences_eq_some sequences pad_func none h] at hout
    obtain rfl := Option.some_injective _ hout
    obtain ⟨t, _, rfl⟩ := List.mem_map.1 hs
    rw [pad_row_length, effective_len]

/-- Witness for C1 on `[[1,2,3],[4,5]]` with requested length 4:
the effective length is `min 4 3 = 3`. -/
theorem pad_sequences_output_length_at_example :
    ([4, 5, 0] : List Int).length = min 4 (max_observed [[(1 : Int), 2, 3], [4, 5]]) :=
  (pad_sequences_output_length [[(1 : Int), 2, 3], [4, 5]] (fun _ => 0)
      (by decide)).1 4 [[1, 2, 3], [4, 5, 0]] (by decide) [4, 5, 0] (by decide)

theorem pad_sequences_out_rows (sequences : List (List α))
    (pad_func : Unit → α) (maxlen : Option Nat) (out : List (List α))
    (hout : pad_sequences sequences pad_func maxlen = some out) :
    out.length = sequences.length ∧
    ∀ i, i < sequences.length →
      out[i]? = some (pad_row (effective_len sequences maxlen) (pad_func ())
        (sequences.getD i [])) := by
  have hne : sequences ≠ [] := by
    rintro rfl
    simp [pad_sequences] at hout
  rw [pad_sequences_eq_some sequences pad_func maxlen hne] at hout
  obtain rfl := Option.some_injective _ hout
  refine ⟨List.length_map _ _, fun i hi => ?_⟩
  rw [List.getElem?_map, List.getElem?_eq_getElem hi, List.getD_eq_getElem _ _ hi]
  rfl

/-- C10: `pad_sequences` returns exactly as many sequences as it was
given, in order: the i-th output row is the padded/truncated i-th input. -/
theorem pad_sequences_count_and_order (sequences : List (List α))
    (pad_func : Unit → α) (maxlen : Option Nat) (out : List (List α))
    (hout : pad_sequences sequences pad_func maxlen = some out) :
    out.length = sequences.length ∧
    ∀ i, i < sequences.length →
      out[i]? = some (pad_row (effective_len sequences maxlen) (pad_func ())
        (sequences.getD i [])) :=
  pad_sequences_out_rows sequences pad_func maxlen out hout

/-- Witness for C10 at `[[1,2,3],[4,5]]` with no requested length. -/
theorem pad_sequences_count_and_order_at_example :
    ([[1, 2, 3], [4, 5, 0]] : List (List Int)).length = [[(1 : Int), 2, 3], [4, 5]].length ∧
    ([[1, 2, 3], [4, 5, 0]] : List (List Int))[1]? =
      some (pad_row (effective_len [[(1 : Int), 2, 3], [4, 5]] none) 0
        ([[(1 : Int), 2, 3], [4, 5]].getD 1 [])) :=
  ⟨(pad_sequences_count_and_order [[(1 : Int), 2, 3], [4, 5]] (fun _ => 0) none
      [[1, 2, 3], [4, 5, 0]] (by decide)).1,
   (pad_sequences_count_and_order [[(1 : Int), 2, 3], [4, 5]] (fun _ => 0) none
      [[1, 2, 3], [4, 5, 0]] (by decide)).2 1 (by decide)⟩

/-- C4: a sequence longer than the effective length is truncated:
the output row is its first `effective_len` elements. -/
theorem pad_sequences_truncates (sequences : List (List α))
    (pad_func : Unit → α) (maxlen : Option Nat) (out : List (List α))
    (i : Nat) (hi : i < sequences.length)
    (hout : pad_sequences sequences pad_func maxlen = some out)
    (hlong : effective_len sequences maxlen < sequences[i].length) :
    out[i]? = some (sequences[i].take (effective_len sequences maxlen)) := by
  rw [(pad_sequences_out_rows sequences pad_func maxlen out hout).2 i hi]
  rw [List.getD_eq_getElem _ _ hi]
  have hz : effective_len sequences maxlen - sequences[i].length = 0 := by omega
  rw [pad_row, hz, List.replicate_zero, List.append_nil]

/-- Witness for C4: `[1,2,3]` truncated to the effective length 2. -/
theorem pad_sequences_truncates_at_example :
    ([[1, 2], [4, 5]] : List (List Int))[0]? =
      some (([1, 2, 3] : List Int).take (effective_len [[(1 : Int), 2, 3], [4, 5]] (some 2))) :=
  pad_sequences_truncates [[(1 : Int), 2, 3], [4, 5]] (fun _ => 0) (some 2)
    [[1, 2], [4, 5]] 0 (by decide) (by decide) (by decide)

/-- C5: a sequence shorter than the effective length is right-padded:
the output row is the original sequence followed by values produced by
the pad factory, filling up to the effective length. -/
theorem pad_sequences_pads (sequences : List (List α))
    (pad_func : Unit → α) (maxlen : Option Nat) (out : List (List α))
    (i : Nat) (hi : i < sequences.length)
    (hout : pad_sequences sequences pad_func maxlen = some out)
    (hshort : sequences[i].length < effective_len sequences maxlen) :
    out[i]? = some (sequences[i] ++
      List.replicate (effective_len sequences maxlen - sequences[i].length)
        (pad_func ())) := by
  rw [(pad_sequences_out_rows sequences pad_func maxlen out hout).2 i hi]
  rw [List.getD_eq_getElem _ _ hi, pad_row,
    List.take_of_length_le (Nat.le_of_lt hshort)]

/-- Witness for C5: `[4,5]` padded to the effective length 3. -/
theorem pad_sequences_pads_at_example :
    ([[1, 2, 3], [4, 5, 0]] : List (List Int))[1]? =
      some (([4, 5] : List Int) ++
        List.replicate (effective_len [[(1 : Int), 2, 3], [4, 5]] none - 2) 0) :=
  pad_sequences_pads [[(1 : Int), 2, 3], [4, 5]] (fun _ => 0) none
    [[1, 2, 3], [4, 5, 0]] 1 (by decide) (by decide) (by decide)

/-- C7: `pad_sequences` fails (Python: `ValueError` from `max` over no
elements) exactly on the empty collection, and succeeds on every
non-empty collection. -/
theorem pad_sequences_empty_behavior (pad_func : Unit → α) (maxlen : Option Nat) :
    pad_sequences ([] : List (List α)) pad_func maxlen = none ∧
    ∀ sequences : List (List α), sequences ≠ [] →
      (pad_sequences sequences pad_func maxlen).isSome = true := by
  refine ⟨by simp [pad_sequences], fun sequences h => ?_⟩
  rw [pad_sequences_eq_some sequences pad_func maxlen h]
  rfl

/-- Witness for C7: failure on `[]`, success on `[[1]]`. -/
theorem pad_sequences_empty_behavior_at_example :
    pad_sequences ([] : List (List Int)) (fun _ => 0) none = none ∧
    (pad_sequences [[(1 : Int)]] (fun _ => 0) none).isSome = true :=
  ⟨(pad_sequences_empty_behavior (fun _ => (0 : Int)) none).1,
   (pad_sequences_empty_behavior (fun _ => (0 : Int)) none).2 [[1]] (by decide)⟩

/-- C9: a `Pad_sample` encodes to the sentinel index 0, and
`Sample(w).encode()` returns `w` unchanged for every integer `w`. -/
theorem sample_encode_identity :
    Pad_sample.encode = 0 ∧ ∀ w : Int, (Sample.mk w).encode = w :=
  ⟨rfl, fun _ => rfl⟩

/-! ### Dataframe rows and sentence splitting -/

/-- One row of the tab-separated dataset: the columns `get_sents_from_df`,
`encode_inputs` and `encode_outputs` actually read. -/
structure Row where
  run_id : Int
  word : String
  pred : String
  label : String
deriving DecidableEq

/-- `get_sents_from_df`: `[df[df.run_id == i] for i in range(min(df.run_id),
max(df.run_id))]`. Python `min`/`max` raise on an empty column, embedded
as `none`; `range(lo, hi)` enumerates `lo, lo+1, ..., hi-1`. -/
def get_sents_from_df (df : List Row) : Option (List (List Row)) :=
  match (df.map Row.run_id).min?, (df.map Row.run_id).max? with
  | some lo, some hi =>
      some (((List.range (hi - lo).toNat).map (fun k : Nat => lo + (k : Int))).map
        (fun i => df.filter (fun r => r.run_id == i)))
  | _, _ => none

/-! #### `List.min?` / `List.max?` over `Int` -/

theorem int_foldl_min_le (xs : List Int) (a : Int) :
    xs.foldl min a ≤ a ∧ ∀ x ∈ xs, xs.foldl min a ≤ x := by
  induction xs generalizing a with
  | nil => simp
  | cons y ys ih =>
    obtain ⟨h1, h2⟩ := ih (min a y)
    refine ⟨le_trans h1 (min_le_left a y), fun x hx => ?_⟩
    rcases List.mem_cons.1 hx with rfl | hx
    · exact le_trans h1 (min_le_right a x)
    · exact h2 x hx

theorem int_foldl_min_mem (xs : List Int) (a : Int) :
    xs.foldl min a = a ∨ xs.foldl min a ∈ xs := by
  induction xs generalizing a with
  | nil => simp
  | cons y ys ih =>
    rcases ih (min a y) with h | h
    · rcases min_choice a y with h2 | h2
      · left
        rw [List.foldl_cons, h, h2]
      · right
        rw [List.foldl_cons, h, h2]
        exact List.mem_cons_self y ys
    · exact Or.inr (List.mem_cons_of_mem y h)

theorem int_min?_spec {xs : List Int} {m : Int} (h : xs.min? = some m) :
    m ∈ xs ∧ ∀ x ∈ xs, m ≤ x := by
  cases xs with
  | nil => simp [List.min?] at h
  | cons y ys =>
    have hm : ys.foldl min y = m := Option.some_injective _ h
    obtain ⟨h1, h2⟩ := int_foldl_min_le ys y
    refine ⟨?_, fun x hx => ?_⟩
    · rcases int_foldl_min_mem ys y with he | he
      · rw [← hm, he]
        exact List.mem_cons_self y ys
      · rw [← hm]
        exact List.mem_cons_of_mem y he
    · rw [← hm]
      rcases List.mem_cons.1 hx with rfl | hx
      · exact h1
      · exact h2 x hx

theorem int_foldl_max_le (xs : List Int) (a : Int) :
    a ≤ xs.foldl max a ∧ ∀ x ∈ xs, x ≤ xs.foldl max a := by
  induction xs generalizing a with
  | nil => simp
  | cons y ys ih =>
    obtain ⟨h1, h2⟩ := ih (max a y)
    refine ⟨le_trans (le_max_left a y) h1, fun x hx => ?_⟩
    rcases List.mem_cons.1 hx with rfl | hx
    · exact le_trans (le_max_right a x) h1
    · exact h2 x hx

theorem int_foldl_max_mem (xs : List Int) (a : Int) :
    xs.foldl max a = a ∨ xs.foldl max a ∈ xs := by
  induction xs generalizing a with
  | nil => simp
  | cons y ys ih =>
    rcases ih (max a y) with h | h
    · rcases max_choice a y with h2 | h2
      · left
        rw [List.foldl_cons, h, h2]
      · right
        rw [List.foldl_cons, h, h2]
        exact List.mem_cons_self y ys
    · exact Or.inr (List.mem_cons_of_mem y h)

theorem int_max?_spec {xs : List Int} {m : Int} (h : xs.max? = some m) :
    m ∈ xs ∧ ∀ x ∈ xs, x ≤ m := by
  cases xs with
  | nil => simp [List.max?] at h
  | cons y ys =>
    have hm : ys.foldl max y = m := Option.some_injective _ h
    obtain ⟨h1, h2⟩ := int_foldl_max_le ys y
    refine ⟨?_, fun x hx => ?_⟩
    · rcases int_foldl_max_mem ys y with he | he
      · rw [← hm, he]
        exact List.mem_cons_self y ys
      · rw [← hm]
        exact List.mem_cons_of_mem y he
    · rw [← hm]
      rcases List.mem_cons.1 hx with rfl | hx
      · exact h1
      · exact h2 x hx

/-- C2: `get_sents_from_df` builds one group per id from the minimum
observed `run_id` up to `max - 1`; every produced group's id is strictly
below the maximum (the maximum-id sentence is dropped), and a dataframe
whose `run_id` values are exactly `{0,1,2}` yields exactly 2 groups. -/
theorem get_sents_from_df_spec (df : List Row) (lo hi : Int)
    (hlo : (df.map Row.run_id).min? = some lo)
    (hhi : (df.map Row.run_id).max? = some hi) :
    (∀ sents, get_sents_from_df df = some sents →
      sents.length = (hi - lo).toNat ∧
      ∀ i (h : i < sents.length),
        sents[i] = df.filter (fun r => r.run_id == lo + (i : Int)) ∧
        lo + (i : Int) < hi) ∧
    ((∀ r ∈ df, r.run_id = 0 ∨ r.run_id = 1 ∨ r.run_id = 2) →
      (0 : Int) ∈ df.map Row.run_id → (2 : Int) ∈ df.map Row.run_id →
      ∀ sents, get_sents_from_df df = some sents → sents.length = 2) := by
  have hrfl : get_sents_from_df df =
      some (((List.range (hi - lo).toNat).map (fun k : Nat => lo + (k : Int))).map
        (fun i => df.filter (fun r => r.run_id == i))) := by
    unfold get_sents_from_df
    rw [hlo, hhi]
  have hmain : ∀ sents, get_sents_from_df df = some sents →
      sents.length = (hi - lo).toNat ∧
      ∀ i (h : i < sents.length),
        sents[i] = df.filter (fun r => r.run_id == lo + (i : Int)) ∧
        lo + (i : Int) < hi := by
    intro sents hsents
    rw [hrfl] at hsents
    obtain rfl := Option.some_injective _ hsents
    have hlen : (((List.range (hi - lo).toNat).map (fun k : Nat => lo + (k : Int))).map
        (fun i => df.filter (fun r => r.run_id == i))).length = (hi - lo).toNat := by
      simp
    refine ⟨hlen, fun i h => ?_⟩
    have hi' : i < (hi - lo).toNat := hlen ▸ h
    constructor
    · simp [List.getElem_map, List.getElem_range]
    · omega
  refine ⟨hmain, fun hall h0 h2 sents hsents => ?_⟩
  obtain ⟨hlomem, hlole⟩ := int_min?_spec hlo
  obtain ⟨hhimem, hhile⟩ := int_max?_spec hhi
  obtain ⟨r0, _, hr0⟩ := List.mem_map.1 hlomem
  obtain ⟨r1, hr1mem, hr1⟩ := List.mem_map.1 hhimem
  have hlo0 : lo = 0 := by
    have := hlole 0 h0
    rcases hall r0 (by assumption) with h | h | h <;> omega
  have hhi2 : hi = 2 := by
    have := hhile 2 h2
    rcases hall r1 hr1mem with h | h | h <;> omega
  rw [(hmain sents hsents).1, hlo0, hhi2]
  rfl

/-- Witness for C2 on a dataframe with `run_id` values 0, 1, 2: exactly
the two groups for ids 0 and 1 are produced. -/
theorem get_sents_from_df_spec_at_example :
    ([[Row.mk 0 "a" "p" "A"], [Row.mk 1 "b" "p" "B"]] : List (List Row)).length = 2 :=
  (get_sents_from_df_spec
      [Row.mk 0 "a" "p" "A", Row.mk 1 "b" "p" "B", Row.mk 2 "c" "p" "C"] 0 2
      (by decide) (by decide)).2
    (by decide) (by decide) (by decide)
    [[Row.mk 0 "a" "p" "A"], [Row.mk 1 "b" "p" "B"]] (by decide)

/-! ### Label vocabulary and the `RNN_model` encoders -/

/-- sklearn `LabelEncoder.fit`: `classes_` becomes the sorted list of
distinct observed labels. -/
def label_encoder_fit (labels : List String) : List String :=
  labels.dedup.mergeSort (fun a b => decide (a ≤ b))

/-- sklearn `LabelEncoder.transform` on one value: its position in
`classes_`; a label absent from `classes_` raises `ValueError`,
embedded as `none`. -/
def label_encoder_transform (classes : List String) (l : String) : Option Nat :=
  if l ∈ classes then some (classes.indexOf l) else none

/-- sklearn `LabelEncoder.transform` on a column of values: transform
each, failing if any is absent from `classes_` (an empty column
transforms to the empty array without error). -/
def transform_all (classes : List String) : List String → Option (List Nat)
  | [] => some []
  | l :: ls =>
    (label_encoder_transform classes l).bind (fun y =>
      (transform_all classes ls).map (fun ys => y :: ys))

/-- The slice of `RNN_model` state that the data-shaping pipeline reads:
`sent_maxlen`, the fitted `encoder.classes_`, and the external
embedding's `get_word_index`. -/
structure RNNState where
  sent_maxlen : Nat
  encoderClasses : List String
  get_word_index : String → Int

/-- `RNN_model.num_of_classes`. -/
def RNNState.num_of_classes (st : RNNState) : Nat := st.encoderClasses.length

/-- `RNN_model.decode_label`: `self.encoder.inverse_transform(i)`;
an out-of-range index raises in sklearn, embedded as `none`. -/
def RNNState.decode_label (st : RNNState) (encoded_label : Nat) : Option String :=
  st.encoderClasses[encoded_label]?

/-- Per sentence in `encode_inputs`:
`[Sample(w) for w in [emb.get_word_index(w) for w in sent.word.values]]`. -/
def word_samples (st : RNNState) (sent : List Row) : List Sample :=
  (sent.map (fun r => st.get_word_index r.word)).map (fun w => Sample.mk w)

/-- Per sentence in `encode_inputs`, the `sent.pred.values` analogue of
`word_samples`. -/
def pred_samples (st : RNNState) (sent : List Row) : List Sample :=
  (sent.map (fun r => st.get_word_index r.pred)).map (fun w => Sample.mk w)

/-- The dictionary returned by `encode_inputs`. -/
structure EncodedInputs where
  word_inputs : List (List Int)
  predicate_inputs : List (List Int)
deriving DecidableEq

/-- `RNN_model.encode_inputs`: wrap both token columns as samples, pad
with `Pad_sample` to `sent_maxlen`, then `encode` every sample. -/
def encode_inputs (st : RNNState) (sents : List (List Row)) : Option EncodedInputs :=
  match pad_sequences (sents.map (word_samples st)) (fun _ => Pad_sample)
          (some st.sent_maxlen),
        pad_sequences (sents.map (pred_samples st)) (fun _ => Pad_sample)
          (some st.sent_maxlen) with
  | some w, some p =>
      some ⟨w.map (fun samples => samples.map Sample.encode),
            p.map (fun samples => samples.map Sample.encode)⟩
  | _, _ => none

/-- keras `np_utils.to_categorical` without an explicit class count:
one-hot rows of width `np.max(y) + 1`; `np.max` raises on an empty
array, embedded as `none`. -/
def to_categorical (ys : List Nat) : Option (List (List Nat)) :=
  match ys with
  | [] => none
  | y0 :: rest =>
    some (ys.map (fun y =>
      (List.range (rest.foldl Nat.max y0 + 1)).map (fun j => if j = y then 1 else 0)))

/-- One sentence's
`np_utils.to_categorical(self.encoder.transform(sent.label.values))`:
fails on a label outside the vocabulary and on an empty sentence group
(as produced by a `run_id` gap). -/
def sent_output (st : RNNState) (sent : List Row) : Option (List (List Nat)) :=
  (transform_all st.encoderClasses (sent.map Row.label)).bind to_categorical

/-- The `for sent in sents` accumulation loop of `encode_outputs`,
failing at the first sentence whose encoding raises. -/
def encode_each_output (st : RNNState) :
    List (List Row) → Option (List (List (List Nat)))
  | [] => some []
  | sent :: rest =>
    (sent_output st sent).bind (fun enc =>
      (encode_each_output st rest).map (fun encs => enc :: encs))

/-- `RNN_model.encode_outputs`: one-hot rows per sentence, padded with
the all-zero vector `[0] * num_of_classes()` to `sent_maxlen`. -/
def encode_outputs (st : RNNState) (sents : List (List Row)) :
    Option (List (List (List Nat))) :=
  (encode_each_output st sents).bind (fun encs =>
    pad_sequences encs (fun _ => List.replicate st.num_of_classes 0)
      (some st.sent_maxlen))

/-- The `(X, Y)` pair returned by `load_dataset`. -/
structure Dataset where
  inputs : EncodedInputs
  outputs : List (List (List Nat))

/-- `RNN_model.load_dataset`: re-fit the encoder on this file's label
column (mutating the shared model state), then split into sentences and
encode both sides. The updated state is returned explicitly. -/
def load_dataset (st : RNNState) (df : List Row) : RNNState × Option Dataset :=
  let st' : RNNState :=
    ⟨st.sent_maxlen, label_encoder_fit (df.map Row.label), st.get_word_index⟩
  (st',
    match get_sents_from_df df with
    | none => none
    | some sents =>
      match encode_inputs st' sents, encode_outputs st' sents with
      | some ein, some eout => some ⟨ein, eout⟩
      | _, _ => none)

/-! #### Helper lemmas for the encoders -/

theorem max_observed_map_of_length_eq (sents : List (List Row))
    (f : List Row → List β) (hf : ∀ s, (f s).length = s.length) :
    max_observed (sents.map f) = max_observed sents := by
  unfold max_observed
  rw [List.map_map]
  have hmaps : sents.map (List.length ∘ f) = sents.map List.length :=
    List.map_congr_left (fun s _ => hf s)
  rw [hmaps]

theorem effective_len_map_of_length_eq (sents : List (List Row))
    (f : List Row → List β) (m : Nat) (hf : ∀ s, (f s).length = s.length) :
    effective_len (sents.map f) (some m) = min (max_observed sents) m := by
  unfold effective_len
  rw [max_observed_map_of_length_eq sents f hf]

theorem word_samples_length (st : RNNState) (s : List Row) :
    (word_samples st s).length = s.length := by
  simp [word_samples]

theorem pred_samples_length (st : RNNState) (s : List Row) :
    (pred_samples st s).length = s.length := by
  simp [pred_samples]

theorem transform_all_length (classes : List String) :
    ∀ (ls : List String) (ys : List Nat), transform_all classes ls = some ys →
      ys.length = ls.length := by
  intro ls
  induction ls with
  | nil =>
    intro ys hys
    obtain rfl := Option.some_injective _ hys
    rfl
  | cons l ls ih =>
    intro ys hys
    simp only [transform_all, Option.bind_eq_some, Option.map_eq_some'] at hys
    obtain ⟨y, hy, ys', hys', rfl⟩ := hys
    simp [ih ys' hys']

theorem to_categorical_length (ys : List Nat) (rows : List (List Nat))
    (h : to_categorical ys = some rows) : rows.length = ys.length := by
  cases ys with
  | nil => exact absurd h (by simp [to_categorical])
  | cons y0 rest =>
    simp only [to_categorical] at h
    obtain rfl := Option.some_injective _ h
    simp

theorem sent_output_length (st : RNNState) (sent : List Row)
    (enc : List (List Nat)) (h : sent_output st sent = some enc) :
    enc.length = sent.length := by
  simp only [sent_output, Option.bind_eq_some] at h
  obtain ⟨ys, hys, hcat⟩ := h
  rw [to_categorical_length ys enc hcat, transform_all_length _ _ _ hys,
    List.length_map]

theorem encode_each_output_spec (st : RNNState) :
    ∀ (sents : List (List Row)) (encs : List (List (List Nat))),
      encode_each_output st sents = some encs →
      encs.length = sents.length ∧
      ∀ i : Nat, encs[i]? = (sents[i]?).bind (sent_output st) := by
  intro sents
  induction sents with
  | nil =>
    intro encs hencs
    obtain rfl := Option.some_injective _ hencs
    exact ⟨rfl, fun i => by simp⟩
  | cons sent rest ih =>
    intro encs hencs
    simp only [encode_each_output, Option.bind_eq_some, Option.map_eq_some'] at hencs
    obtain ⟨enc, henc, encs', hencs', rfl⟩ := hencs
    obtain ⟨hlen, hget⟩ := ih encs' hencs'
    refine ⟨by simp [hlen], fun i => ?_⟩
    cases i with
    | zero => simp [henc]
    | succ n => simp [hget n]

/-- C3: whenever `encode_inputs` and `encode_outputs` both produce a
result for the same sentence groups (as they do exactly when a dataset
file loads without raising), the Encoded Input and Encoded Output have
the same leading dimension (the sentence count) and the same second
dimension (the shared padded length `min (max observed) sent_maxlen`),
and the i-th input and output rows are both derived from the i-th
sentence. -/
theorem encode_inputs_outputs_dims (st : RNNState) (sents : List (List Row))
    (ein : EncodedInputs) (eout : List (List (List Nat)))
    (hein : encode_inputs st sents = some ein)
    (heout : encode_outputs st sents = some eout) :
    ein.word_inputs.length = sents.length ∧
    ein.predicate_inputs.length = sents.length ∧
    eout.length = sents.length ∧
    (∀ row ∈ ein.word_inputs,
      row.length = min (max_observed sents) st.sent_maxlen) ∧
    (∀ row ∈ ein.predicate_inputs,
      row.length = min (max_observed sents) st.sent_maxlen) ∧
    (∀ row ∈ eout, row.length = min (max_observed sents) st.sent_maxlen) ∧
    (∀ i (hi : i < sents.length),
      ein.word_inputs[i]? =
        some ((pad_row (min (max_observed sents) st.sent_maxlen) Pad_sample
          (word_samples st sents[i])).map Sample.encode) ∧
      eout[i]? = (sent_output st sents[i]).map
        (pad_row (min (max_observed sents) st.sent_maxlen)
          (List.replicate st.num_of_classes 0))) := by
  have hne : sents ≠ [] := by
    rintro rfl
    simp [encode_inputs, pad_sequences] at hein
  have hneW : sents.map (word_samples st) ≠ [] :=
    fun hc => hne (List.map_eq_nil_iff.1 hc)
  have hneP : sents.map (pred_samples st) ≠ [] :=
    fun hc => hne (List.map_eq_nil_iff.1 hc)
  have hW := pad_sequences_eq_some (sents.map (word_samples st))
    (fun _ => Pad_sample) (some st.sent_maxlen) hneW
  have hP := pad_sequences_eq_some (sents.map (pred_samples st))
    (fun _ => Pad_sample) (some st.sent_maxlen) hneP
  rw [effective_len_map_of_length_eq sents _ st.sent_maxlen
    (word_samples_length st)] at hW
  rw [effective_len_map_of_length_eq sents _ st.sent_maxlen
    (pred_samples_length st)] at hP
  have hin : encode_inputs st sents = some
      ⟨((sents.map (word_samples st)).map
          (pad_row (min (max_observed sents) st.sent_maxlen) Pad_sample)).map
          (fun samples => samples.map Sample.encode),
        ((sents.map (pred_samples st)).map
          (pad_row (min (max_observed sents) st.sent_maxlen) Pad_sample)).map
          (fun samples => samples.map Sample.encode)⟩ := by
    unfold encode_inputs
    rw [hW, hP]
  rw [hin] at hein
  obtain rfl := Option.some_injective _ hein
  obtain ⟨encs, hencs, hpad⟩ :
      ∃ encs, encode_each_output st sents = some encs ∧
        pad_sequences encs (fun _ => List.replicate st.num_of_classes 0)
          (some st.sent_maxlen) = some eout := by
    simpa only [encode_outputs, Option.bind_eq_some] using heout
  obtain ⟨hlenencs, hgetencs⟩ := encode_each_output_spec st sents encs hencs
  have hlens : encs.map List.length = sents.map List.length := by
    apply List.ext_getElem?
    intro i
    rw [List.getElem?_map, List.getElem?_map]
    by_cases hi : i < sents.length
    · have h1 : sents[i]? = some sents[i] := List.getElem?_eq_getElem hi
      have h2 := hgetencs i
      have hi' : i < encs.length := by omega
      rw [h1, List.getElem?_eq_getElem hi'] at h2
      rw [h1, List.getElem?_eq_getElem hi']
      have hl := sent_output_length st sents[i] encs[i]
        (by simpa using h2.symm)
      simp [hl]
    · have h1 : sents[i]? = none := List.getElem?_eq_none (by omega)
      have h2 : encs[i]? = none := List.getElem?_eq_none (by omega)
      rw [h1, h2]
      rfl
  have hmax : max_observed encs = max_observed sents := by
    unfold max_observed
    rw [hlens]
  have hnee : encs ≠ [] := by
    rintro rfl
    exact hne (List.length_eq_zero.1 hlenencs.symm)
  rw [pad_sequences_eq_some encs _ _ hnee] at hpad
  have heff : effective_len encs (some st.sent_maxlen) =
      min (max_observed sents) st.sent_maxlen := by
    unfold effective_len
    rw [hmax]
  rw [heff] at hpad
  obtain rfl := Option.some_injective _ hpad
  refine ⟨by simp, by simp, by simp [hlenencs], ?_, ?_, ?_, ?_⟩
  · intro row hrow
    simp only [List.mem_map] at hrow
    obtain ⟨x, ⟨s, hs, rfl⟩, rfl⟩ := hrow
    rw [List.length_map, pad_row_length]
  · intro row hrow
    simp only [List.mem_map] at hrow
    obtain ⟨x, ⟨s, hs, rfl⟩, rfl⟩ := hrow
    rw [List.length_map, pad_row_length]
  · intro row hrow
    simp only [List.mem_map] at hrow
    obtain ⟨s, hs, rfl⟩ := hrow
    rw [pad_row_length]
  · intro i hi
    constructor
    · simp [List.getElem?_map, List.getElem?_eq_getElem hi]
    · have h2 := hgetencs i
      rw [List.getElem?_eq_getElem hi] at h2
      rw [List.getElem?_map, h2]
      rfl

/-- A concrete model state for evaluating the encoders. -/
def exampleState : RNNState := ⟨3, ["A", "B"], fun _ => 7⟩

/-- Two one-row sentence groups for evaluating the encoders. -/
def exampleSents : List (List Row) :=
  [[Row.mk 0 "a" "p" "A"], [Row.mk 0 "b" "p" "B"]]

/-- Witness for C3 on two concrete one-row sentences. -/
theorem encode_inputs_outputs_dims_at_example :
    (⟨[[7], [7]], [[7], [7]]⟩ : EncodedInputs).word_inputs.length =
      exampleSents.length :=
  (encode_inputs_outputs_dims exampleState exampleSents
    ⟨[[7], [7]], [[7], [7]]⟩ [[[1]], [[0, 1]]] (by decide) (by decide)).1

theorem mem_label_encoder_fit (labels : List String) (x : String) :
    x ∈ label_encoder_fit labels ↔ x ∈ labels := by
  unfold label_encoder_fit
  rw [List.mem_mergeSort, List.mem_dedup]

/-- C6: when the vocabulary was fit on a label list containing `l`,
transforming `l` succeeds with its class index, and decoding that index
with `decode_label` returns `l`. -/
theorem decode_label_roundtrip (st : RNNState) (labels : List String) (l : String)
    (hst : st.encoderClasses = label_encoder_fit labels) (hl : l ∈ labels) :
    (label_encoder_transform st.encoderClasses l).bind st.decode_label = some l := by
  have hmem : l ∈ label_encoder_fit labels := (mem_label_encoder_fit labels l).2 hl
  show (label_encoder_transform st.encoderClasses l).bind
    (fun i => st.encoderClasses[i]?) = some l
  rw [hst]
  simp only [label_encoder_transform, if_pos hmem, Option.some_bind]
  exact List.getElem?_indexOf hmem

/-- Witness for C6 with the vocabulary fit on `["B", "A"]`. -/
theorem decode_label_roundtrip_at_example :
    (label_encoder_transform (label_encoder_fit ["B", "A"]) "A").bind
      (RNNState.decode_label ⟨3, label_encoder_fit ["B", "A"], fun _ => 0⟩) =
      some "A" :=
  decode_label_roundtrip ⟨3, label_encoder_fit ["B", "A"], fun _ => 0⟩
    ["B", "A"] "A" rfl (by decide)

/-- C8: every `load_dataset` call re-fits the shared vocabulary on the
loaded file's label column, and loading a second file whose label set
differs changes the class list and hence the `decode_label` mapping. -/
theorem load_dataset_refits_encoder :
    (∀ st df, ((load_dataset st df).1).encoderClasses =
      label_encoder_fit (df.map Row.label)) ∧
    (∀ st df1 df2,
      (∃ x, ¬ (x ∈ df1.map Row.label ↔ x ∈ df2.map Row.label)) →
      ((load_dataset (load_dataset st df1).1 df2).1).encoderClasses ≠
        ((load_dataset st df1).1).encoderClasses ∧
      ∃ n, ((load_dataset (load_dataset st df1).1 df2).1).decode_label n ≠
        ((load_dataset st df1).1).decode_label n) := by
  have hfst : ∀ st df, ((load_dataset st df).1).encoderClasses =
      label_encoder_fit (df.map Row.label) := fun st df => rfl
  refine ⟨hfst, fun st df1 df2 hx => ?_⟩
  obtain ⟨x, hx⟩ := hx
  have hne : ((load_dataset (load_dataset st df1).1 df2).1).encoderClasses ≠
      ((load_dataset st df1).1).encoderClasses := by
    rw [hfst, hfst]
    intro he
    exact hx (Iff.trans (Iff.trans (mem_label_encoder_fit (df1.map Row.label) x).symm
      (by rw [he])) (mem_label_encoder_fit (df2.map Row.label) x))
  refine ⟨hne, ?_⟩
  by_contra hno
  push_neg at hno
  exact hne (List.ext_getElem? hno)

/-- A model state before any dataset has been loaded. -/
def initialOldState : RNNState := ⟨3, [], fun _ => 0⟩

/-- A dataset file whose label column is `A, B`. -/
def fileAB : List Row := [Row.mk 0 "w" "p" "A", Row.mk 1 "w" "p" "B"]

/-- A dataset file whose label column is `B, C`. -/
def fileBC : List Row := [Row.mk 0 "w" "p" "B", Row.mk 1 "w" "p" "C"]

/-- Witness for C8: loading `fileBC` after `fileAB` changes the fitted
class list. -/
theorem load_dataset_refits_encoder_at_example :
    ((load_dataset (load_dataset initialOldState fileAB).1 fileBC).1).encoderClasses ≠
      ((load_dataset initialOldState fileAB).1).encoderClasses :=
  ((load_dataset_refits_encoder).2 initialOldState fileAB fileBC
    ⟨"A", by decide⟩).1

end SupervisedOIE
